import Mathlib

/-!
# urlshort: redirect handlers, the bolt-backed store and startup

A shallow embedding of `pkg/urlshort/handler.go`, `pkg/storage/storage.go` and
`cmd/urlshort/main.go`.

* Go maps are lists of bindings (`GoMap`), read with `GoMap.get` and written with `GoMap.set`.
* A handler is a state transformer: it receives the response writer, the request and the
  mutable state the handler closes over (for the real chain: the store), and returns the
  response writer and that state after the call.
* `net/http`, `encoding/json`, `yaml.v2` and `bolt` are dependencies that live outside the
  repository; the few operations the code calls are modelled next to their callers.
-/

/-! ## Go maps -/

/-- A Go `map[string]V` as a list of bindings. `GoMap.set` keeps one binding per key. -/
abbrev GoMap (V : Type) := List (String × V)

namespace GoMap

/-- The Go expression `v, ok := m[k]`: `some v` when `k` is bound, `none` otherwise. -/
def get {V : Type} (m : GoMap V) (k : String) : Option V :=
  match m with
  | [] => none
  | (k1, v) :: rest => if k1 = k then some v else get rest k

/-- The Go statement `m[k] = v`: binds `k` to `v`, dropping any earlier binding of `k`. -/
def set {V : Type} (m : GoMap V) (k : String) (v : V) : GoMap V :=
  (k, v) :: m.filter (fun e => !decide (e.1 = k))

/-- The keys of the map. -/
def keys {V : Type} (m : GoMap V) : List String := m.map (fun e => e.1)

/-- The number of entries the map holds for key `k`. -/
def entriesFor {V : Type} (m : GoMap V) (k : String) : Nat :=
  (m.filter (fun e => decide (e.1 = k))).length

end GoMap

/-! ## net/http -/

namespace http

/-- The constant `http.StatusOK`. -/
def StatusOK : Nat := 200

/-- The constant `http.StatusFound`. -/
def StatusFound : Nat := 302

/-- The constant `http.StatusMovedPermanently`. -/
def StatusMovedPermanently : Nat := 301

/-- The constant `http.StatusBadRequest`. -/
def StatusBadRequest : Nat := 400

/-- The constant `http.StatusNotFound`. -/
def StatusNotFound : Nat := 404

/-- The part of `url.URL` the handlers read. -/
structure URL where
  Path : String
deriving DecidableEq, Repr

/-- The part of `http.Request` the handlers and the mux read: the method, the parsed URL
and the request target as it was sent (`RequestURI`). -/
structure Request where
  Method : String
  URL : http.URL
  RequestURI : String
deriving DecidableEq, Repr

/-- Modelled from the spec: `http.ResponseWriter` belongs to net/http, outside the repository.
The response under construction: the header map, the status line (`none` until the header is
written) and the body written so far. -/
structure ResponseWriter where
  header : GoMap String
  status : Option Nat
  body : String
deriving DecidableEq, Repr

/-- The response writer the server hands to the outermost handler: nothing written yet. -/
def NewResponse : ResponseWriter := ⟨[], none, ""⟩

/-- Modelled from the spec: `ResponseWriter.WriteHeader` of net/http. The first call fixes
the status code, later calls are ignored. -/
def ResponseWriter.WriteHeader (w : ResponseWriter) (code : Nat) : ResponseWriter :=
  match w.status with
  | none => { w with status := some code }
  | some _ => w

/-- Modelled from the spec: `ResponseWriter.Write` of net/http. A write before any
`WriteHeader` first writes the header with `StatusOK`; the data is appended to the body. -/
def ResponseWriter.Write (w : ResponseWriter) (data : String) : ResponseWriter :=
  let w1 := w.WriteHeader StatusOK
  { w1 with body := w1.body ++ data }

/-- Modelled from the spec: `http.Redirect` of net/http, "302 Found with a Location header
set to the resolved URL" (spec section 6). It sets the `Location` header to `url` and writes
the header with `code`. The short HTML body net/http adds for GET requests and its rewriting
of relative URLs are not part of the model. -/
def Redirect (w : ResponseWriter) (_r : Request) (url : String) (code : Nat) : ResponseWriter :=
  ({ w with header := GoMap.set w.header "Location" url }).WriteHeader code

/-- The type `http.Handler` (and `http.HandlerFunc`): `ServeHTTP(w, r)` run in state `s`
returns the response writer and the state after the call. -/
abbrev Handler (σ : Type) := ResponseWriter → Request → σ → ResponseWriter × σ

/-- Ghost instrumentation: the handler `h` with a counter of its invocations added to the
state. -/
def Handler.counting {σ : Type} (h : Handler σ) : Handler (σ × Nat) :=
  fun w r s => ((h w r s.1).1, ((h w r s.1).2, s.2 + 1))

/-- A handler over `σ` run in a larger state whose second component it never touches. -/
def Handler.lift {σ τ : Type} (h : Handler σ) : Handler (σ × τ) :=
  fun w r s => ((h w r s.1).1, ((h w r s.1).2, s.2))

/-! ### http.ServeMux -/

/-- The elements of a path: the runs of characters between its slashes. -/
def splitSlash : List Char → List (List Char)
  | [] => [[]]
  | c :: rest =>
    if c = '/' then [] :: splitSlash rest
    else
      match splitSlash rest with
      | [] => [[c]]
      | seg :: segs => (c :: seg) :: segs

/-- The elements `path.Clean` keeps of a rooted path. `stack` holds the elements kept so
far, last first: an empty element and `.` are dropped, `..` drops the element before it (and
is itself dropped at the root). -/
def cleanElems (stack : List (List Char)) : List (List Char) → List (List Char)
  | [] => stack.reverse
  | seg :: rest =>
    if seg = [] ∨ seg = ['.'] then cleanElems stack rest
    else if seg = ['.', '.'] then cleanElems stack.tail rest
    else cleanElems (seg :: stack) rest

/-- The elements written one after the other, each after a slash. -/
def joinSlash : List (List Char) → List Char
  | [] => []
  | seg :: rest => '/' :: (seg ++ joinSlash rest)

/-- Modelled from the spec: `path.Clean` of the Go library on a rooted path: the shortest
path with the same meaning, `/` when no element is left. -/
def pathClean (p : List Char) : List Char :=
  match joinSlash (cleanElems [] (splitSlash p)) with
  | [] => ['/']
  | c :: np => c :: np

/-- Modelled from the spec: `cleanPath` of net/http/server.go, the canonical form of a
request path: the empty path becomes `/`, a leading slash is added when missing, the path is
cleaned with `path.Clean`, and a trailing slash is kept. -/
def cleanPath (p : String) : String :=
  if p = "" then "/"
  else
    let p1 : List Char := if p.toList.head? = some '/' then p.toList else '/' :: p.toList
    let np : List Char := pathClean p1
    if p1.getLast? = some '/' ∧ np ≠ ['/'] then String.mk (np ++ ['/']) else String.mk np

/-- The Go function `strings.HasPrefix(s, pre)` on the characters of the two strings. -/
def startsWith : List Char → List Char → Bool
  | _, [] => true
  | [], _ :: _ => false
  | c :: s, d :: pre => decide (c = d) && startsWith s pre

/-- Modelled from the spec: `http.ServeMux` of net/http, outside the repository: the
registered patterns with their handlers. No pattern of this program names a host, so hosts
play no part. -/
structure ServeMux (σ : Type) where
  m : List (String × Handler σ)

/-- The function `http.NewServeMux`: a mux without patterns. -/
def NewServeMux {σ : Type} : ServeMux σ := ⟨[]⟩

/-- The method `mux.HandleFunc(pattern, handler)`: registers `handler` for `pattern`. -/
def ServeMux.HandleFunc {σ : Type} (mux : ServeMux σ) (pattern : String)
    (handler : Handler σ) : ServeMux σ :=
  ⟨mux.m ++ [(pattern, handler)]⟩

/-- The longest registered pattern that ends in a slash and begins `path`; `best` is the
longest found so far. -/
def ServeMux.longest {σ : Type} (path : String) :
    List (String × Handler σ) → Option (String × Handler σ) → Option (String × Handler σ)
  | [], best => best
  | e :: rest, best =>
    if e.1.toList.getLast? = some '/' ∧ startsWith path.toList e.1.toList = true
        ∧ (match best with
            | none => true
            | some b => decide (b.1.utf8ByteSize < e.1.utf8ByteSize)) = true
    then ServeMux.longest path rest (some e)
    else ServeMux.longest path rest best

/-- Modelled from the spec: the method `mux.match(path)` of net/http: the handler of the
pattern equal to `path`, else of the longest pattern ending in a slash that begins `path`. -/
def ServeMux.matchPath {σ : Type} (mux : ServeMux σ) (path : String) : Option (Handler σ) :=
  match mux.m.find? (fun e => decide (e.1 = path)) with
  | some e => some e.2
  | none =>
    match ServeMux.longest path mux.m none with
    | some e => some e.2
    | none => none

/-- Modelled from the spec: `http.NotFound` of net/http: status 404 with the body
"404 page not found". -/
def NotFound (w : ResponseWriter) (_r : Request) : ResponseWriter :=
  (w.WriteHeader StatusNotFound).Write "404 page not found\n"

/-- Modelled from the spec: the method `mux.handler(host, path)` of net/http: the matching
handler, or the not-found handler when no pattern matches. -/
def ServeMux.handler {σ : Type} (mux : ServeMux σ) (path : String) : Handler σ :=
  match mux.matchPath path with
  | some h => h
  | none => fun w r s => (NotFound w r, s)

/-- Modelled from the spec: the method `mux.Handler(r)` of net/http. A CONNECT request is
matched on its path as sent. Any other request whose path is not in canonical form gets
`RedirectHandler(cleaned path, StatusMovedPermanently)`; a canonical path is matched. The
redirection from `/tree` to `/tree/` needs a nonempty path `p` with `p/` registered and `p`
not; with `/` as the only pattern there is no such path, and it is left out. -/
def ServeMux.Handler {σ : Type} (mux : ServeMux σ) (r : Request) : http.Handler σ :=
  if r.Method = "CONNECT" then mux.handler r.URL.Path
  else
    let path := cleanPath r.URL.Path
    if path ≠ r.URL.Path then
      fun w r1 s => (Redirect w r1 path StatusMovedPermanently, s)
    else mux.handler r.URL.Path

/-- Modelled from the spec: the method `mux.ServeHTTP(w, r)` of net/http. The request target
`*` is answered with status 400 (the `Connection: close` header it adds for HTTP/1.1 is left
out); any other request goes to the handler `mux.Handler(r)` selects. -/
def ServeMux.ServeHTTP {σ : Type} (mux : ServeMux σ) : http.Handler σ :=
  fun w r s =>
    if r.RequestURI = "*" then (w.WriteHeader StatusBadRequest, s)
    else mux.Handler r w r s

end http

/-! ## pkg/urlshort/handler.go -/

namespace urlshort

open http

/-- The interface `Store` of handler.go: `Get(path) (url string, found bool)`. A call may
have effects of its own, so it also returns the state after the call. -/
structure Store (σ : Type) where
  Get : String → σ → (String × Bool) × σ

/-- Ghost instrumentation: the store `st` with a counter of `Get` calls added to the state. -/
def Store.counting {σ : Type} (st : Store σ) : Store (σ × Nat) :=
  ⟨fun path s => ((st.Get path s.1).1, ((st.Get path s.1).2, s.2 + 1))⟩

/-- The function `MapHandler` of handler.go. -/
def MapHandler {σ : Type} (pathsToUrls : GoMap String) (fallback : Handler σ) : Handler σ :=
  fun w r s =>
    match GoMap.get pathsToUrls r.URL.Path with
    | none => fallback w r s
    | some dest => (Redirect w r dest StatusFound, s)

/-- The struct `pathURL` of handler.go. -/
structure pathURL where
  Path : String
  URL : String
deriving DecidableEq, Repr

/-- The loop of `YAMLHandler` that fills `pathsToURLs` from the decoded records, in order. -/
def yamlMap (pathURLs : List pathURL) : GoMap String :=
  pathURLs.foldl (fun pathsToURLs item => GoMap.set pathsToURLs item.Path item.URL) []

/-- The function `YAMLHandler` of handler.go. `yml` is the outcome of
`yaml.NewDecoder(yml).Decode(&pathURLs)`: the decoded records or the decoder's error. -/
def YAMLHandler {σ : Type} (yml : Except String (List pathURL)) (fallback : Handler σ) :
    Except String (Handler σ) :=
  match yml with
  | .error err => .error err
  | .ok pathURLs => .ok (MapHandler (yamlMap pathURLs) fallback)

/-- Modelled from the spec: the decoder of encoding/json is outside the repository. Decoding
"a flat object of path: url string pairs" into a `map[string]string` stores the members one
by one, in document order. -/
def jsonObject (members : List (String × String)) : GoMap String :=
  members.foldl (fun m kv => GoMap.set m kv.1 kv.2) []

/-- The function `JSONHandler` of handler.go. `jsonReader` is the outcome of
`json.NewDecoder(jsonReader).Decode(&pathsToURLs)`: the decoded map or the decoder's error. -/
def JSONHandler {σ : Type} (jsonReader : Except String (GoMap String)) (fallback : Handler σ) :
    Except String (Handler σ) :=
  match jsonReader with
  | .error err => .error err
  | .ok pathsToURLs => .ok (MapHandler pathsToURLs fallback)

/-- The function `DBHandler` of handler.go. -/
def DBHandler {σ : Type} (store : Store σ) (fallback : Handler σ) : Handler σ :=
  fun w r s =>
    match store.Get r.URL.Path s with
    | ((dest, ok), s1) =>
      if !ok then fallback w r s1
      else (Redirect w r dest StatusFound, s1)

end urlshort

/-! ## bolt -/

namespace bolt

/-- A Go `error` value, kept as its message. -/
abbrev error := String

/-- The error bolt returns for a blank bucket name. -/
def ErrBucketNameRequired : error := "bucket name required"

/-- The error bolt returns for a blank key. -/
def ErrKeyRequired : error := "key required"

/-- The error bolt returns for a key longer than `MaxKeySize`. -/
def ErrKeyTooLarge : error := "key too large"

/-- The error bolt returns for a value longer than `MaxValueSize`. -/
def ErrValueTooLarge : error := "value too large"

/-- The constant `bolt.MaxKeySize`, in bytes. -/
def MaxKeySize : Nat := 32768

/-- The constant `bolt.MaxValueSize`, in bytes. -/
def MaxValueSize : Nat := 2147483646

/-- The key/value pairs of one bucket. Byte slices are kept as strings. -/
abbrev Bucket := GoMap String

/-- Modelled from the spec: the bolt engine is a dependency outside the repository. The
"embedded transactional file-based database": its buckets by name, and `commitErr`, the error
the engine reports when it cannot commit a read-write transaction (`none` when it can). -/
structure DB where
  buckets : GoMap Bucket
  commitErr : Option error
deriving DecidableEq, Repr

/-- Modelled from the spec: a bolt transaction, the working copy of the buckets it sees. -/
structure Tx where
  buckets : GoMap Bucket
deriving DecidableEq, Repr

/-- Modelled from the spec: `tx.Bucket(name)` of bolt, `none` (Go nil) "if the collection does
not exist". -/
def Tx.Bucket (tx : Tx) (name : String) : Option Bucket :=
  GoMap.get tx.buckets name

/-- Modelled from the spec: `b.Get(key)` of bolt, `none` (Go nil) if "the key is absent". -/
def Bucket.Get (b : Bucket) (key : String) : Option String :=
  GoMap.get b key

/-- Modelled from the spec: `tx.CreateBucketIfNotExists(name)` of bolt, which "lazily creates
the named collection if absent". Returns the bucket handle (its name) and the transaction;
bolt refuses a blank name. -/
def Tx.CreateBucketIfNotExists (tx : Tx) (name : String) : Except error (String × Tx) :=
  if name.utf8ByteSize = 0 then .error ErrBucketNameRequired
  else
    match GoMap.get tx.buckets name with
    | some _ => .ok (name, tx)
    | none => .ok (name, { tx with buckets := GoMap.set tx.buckets name [] })

/-- Modelled from the spec: `b.Put(key, value)` of bolt on the bucket with handle `b` of the
read-write transaction `tx`, which "upserts path -> url". bolt refuses a blank key, a key
above `MaxKeySize` and a value above `MaxValueSize`. -/
def Tx.Put (tx : Tx) (b : String) (key value : String) : Except error Tx :=
  if key.utf8ByteSize = 0 then .error ErrKeyRequired
  else if key.utf8ByteSize > MaxKeySize then .error ErrKeyTooLarge
  else if value.utf8ByteSize > MaxValueSize then .error ErrValueTooLarge
  else
    match GoMap.get tx.buckets b with
    | none => .ok tx
    | some content =>
      .ok { tx with buckets := GoMap.set tx.buckets b (GoMap.set content key value) }

/-- Modelled from the spec: `db.Update(fn)` of bolt, "a single read-write transaction". When
`fn` returns an error the transaction is rolled back and the error returned; otherwise the
transaction is committed, unless the engine cannot commit. -/
def DB.Update (db : DB) (fn : Tx → Except error Tx) : Option error × DB :=
  match fn ⟨db.buckets⟩ with
  | .error err => (some err, db)
  | .ok tx =>
    match db.commitErr with
    | some err => (some err, db)
    | none => (none, { db with buckets := tx.buckets })

/-- Modelled from the spec: `db.View(fn)` of bolt, "a read-only transaction". `fn` reads the
buckets and updates the variables `vars` it captures; the database is returned as it was. -/
def DB.View {α : Type} (db : DB) (vars : α) (fn : Tx → α → α) : α × DB :=
  (fn ⟨db.buckets⟩ vars, db)

end bolt

/-! ## pkg/storage/storage.go -/

namespace storage

/-- The variable `backetName` of storage.go. -/
def backetName : String := "pathsToURLs"

/-- The struct `Store` of storage.go: the open database. The `close` field, the cancel
function of the statistics reporter, is modelled with `Close` below. -/
structure Store where
  db : bolt.DB
deriving DecidableEq, Repr

/-- The method `Store.Put` of storage.go. Returns the error (`none` for nil) and the store
after the call. -/
def Store.Put (s : Store) (path url : String) : Option bolt.error × Store :=
  match s.db.Update (fun tx =>
      match tx.CreateBucketIfNotExists backetName with
      | .error err => .error err
      | .ok (b, tx1) => tx1.Put b path url) with
  | (err, db1) => (err, { s with db := db1 })

/-- The method `Store.Get` of storage.go. The named results `url, found` start at their zero
values and are assigned inside the read-only transaction. -/
def Store.Get (s : Store) (path : String) : (String × Bool) × Store :=
  match s.db.View ("", false) (fun tx res =>
      match tx.Bucket backetName with
      | none => res
      | some b =>
        match bolt.Bucket.Get b path with
        | none => res
        | some urlBytes => (urlBytes, true)) with
  | (res, db1) => (res, { s with db := db1 })

/-- The struct `*storage.Store` seen through the interface `urlshort.Store`. -/
def Store.asStore : urlshort.Store Store :=
  ⟨fun path s => s.Get path⟩

end storage

/-! ## storage.go: `New`, `stat` and `Close` as interleaved steps -/

namespace storage

/-- The function `New` of storage.go on the outcome `opened` of `bolt.Open`. The reporter it
starts with `go stat(ctx, db)` is modelled by `Sys` below. -/
def New (opened : Except bolt.error bolt.DB) : Except bolt.error Store :=
  match opened with
  | .error err => .error err
  | .ok db => .ok ⟨db⟩

/-- The position of the goroutine that runs `Store.Close`: before `s.close()`, between
`s.close()` and `s.db.Close()`, and after `Close` has returned. -/
inductive ClosePc where
  | notCalled
  | cancelled
  | returned
deriving DecidableEq, Repr

/-- The position of the goroutine that runs `stat`: before `prev := db.Stats()`, blocked in
the `select`, inside the `case <-t.C` branch before its first statement, and returned. -/
inductive StatPc where
  | start
  | waiting
  | ticked
  | returned
deriving DecidableEq, Repr

/-- What an observer sees: `Close` returned, the reporter called `db.Stats()` (with the
database open or not at that moment), the reporter wrote a record to stderr. -/
inductive Event where
  | closeReturned
  | statsRead (dbOpen : Bool)
  | emitted
deriving DecidableEq, Repr

/-- The shared state of a store after `New`: whether `ctx.Done()` is closed, whether the bolt
database is open, the two goroutines and the events so far. -/
structure Sys where
  done : Bool
  dbOpen : Bool
  close : ClosePc
  stat : StatPc
  log : List Event
deriving DecidableEq, Repr

/-- The atomic steps. `cancel` is the statement `s.close()` and `dbClose` the statement
`return s.db.Close()` of `Close`; `begin` is `prev := db.Stats()` with the creation of the
ticker, `tick` the `select` taking `case <-t.C`, `report` the body of that case, and
`observeDone` the `select` taking `case <-ctx.Done()` with `t.Stop(); return`. -/
inductive Step where
  | cancel
  | dbClose
  | begin
  | tick
  | report
  | observeDone
deriving DecidableEq, Repr

/-- The state when `New` returns: database open, context live, reporter just spawned. -/
def Sys.init : Sys := ⟨false, true, .notCalled, .start, []⟩

/-- The method `Store.Close` of storage.go, statement by statement: `s.close()` cancels the
context, `return s.db.Close()` closes the database and returns. `none` when the step is not
the next statement of `Close`. -/
def Close (s : Sys) : Step → Option Sys
  | .cancel =>
    if s.close = .notCalled then some { s with done := true, close := .cancelled } else none
  | .dbClose =>
    if s.close = .cancelled then
      some { s with dbOpen := false, close := .returned, log := s.log ++ [.closeReturned] }
    else none
  | _ => none

/-- The function `stat` of storage.go, statement by statement. The `select` may take
`case <-t.C` whenever the reporter waits, and `case <-ctx.Done()` only once the context is
done. `none` when the step is not enabled. -/
def stat (s : Sys) : Step → Option Sys
  | .begin =>
    if s.stat = .start then
      some { s with stat := .waiting, log := s.log ++ [.statsRead s.dbOpen] }
    else none
  | .tick =>
    if s.stat = .waiting then some { s with stat := .ticked } else none
  | .report =>
    if s.stat = .ticked then
      some { s with stat := .waiting, log := s.log ++ [.statsRead s.dbOpen, .emitted] }
    else none
  | .observeDone =>
    if s.stat = .waiting ∧ s.done = true then some { s with stat := .returned } else none
  | _ => none

/-- One step of one goroutine; `none` when the step is not enabled in `s`. -/
def Sys.step (s : Sys) : Step → Option Sys
  | .cancel => storage.Close s .cancel
  | .dbClose => storage.Close s .dbClose
  | st => storage.stat s st

/-- A schedule: the steps taken one after the other. -/
def Sys.run (s : Sys) : List Step → Option Sys
  | [] => some s
  | st :: rest =>
    match s.step st with
    | none => none
    | some s1 => Sys.run s1 rest

/-- The events of the reporter that follow the return of `Close` in a log. -/
def reporterAfterClose (log : List Event) : List Event :=
  ((log.dropWhile (fun e => decide (e ≠ .closeReturned))).filter
    (fun e => decide (e ≠ .closeReturned)))

/-- The number of events produced by the reporter in a log. -/
def reporterEvents (log : List Event) : Nat :=
  (log.filter (fun e => decide (e ≠ .closeReturned))).length

end storage

/-! ## cmd/urlshort/main.go -/

namespace cmd

open http

/-- The effects of startup an observer of the process sees. -/
inductive Effect where
  | Open (name : String)
  | Close (name : String)
  | StoreNew (name : String)
  | StoreClose (name : String)
  | Println (line : String)
  | ListenAndServe
  | Exit (code : Nat)
deriving DecidableEq, Repr

/-- How a piece of the program ends: it returns a value, or control never comes back (the
process exited, or serves forever). -/
inductive Outcome (α : Type) where
  | value (a : α)
  | stopped
deriving Repr

/-- A piece of the program: from the effects so far to its outcome and the effects after. -/
abbrev Proc (α : Type) := List Effect → Outcome α × List Effect

/-- Return `a` with no effect. -/
def Proc.ret {α : Type} (a : α) : Proc α := fun t => (.value a, t)

/-- Sequencing: `k` runs only when `p` returns. -/
def Proc.andThen {α β : Type} (p : Proc α) (k : α → Proc β) : Proc β :=
  fun t =>
    match p t with
    | (.value a, t1) => k a t1
    | (.stopped, t1) => (.stopped, t1)

/-- Record one effect. -/
def emit (e : Effect) : Proc Unit := fun t => (.value (), t ++ [e])

/-- Control never comes back. -/
def halt {α : Type} : Proc α := fun t => (.stopped, t)

/-- The call `os.Exit(code)`: the process ends at once, deferred calls do not run. -/
def osExit {α : Type} (code : Nat) : Proc α :=
  Proc.andThen (emit (.Exit code)) (fun _ => halt)

/-- The files and the database startup finds: the outcome of `os.Open` on the JSON file and,
when it opens, of decoding it; the same for the YAML file; the outcome of `bolt.Open`; and
whether `http.ListenAndServe` ever returns. -/
structure Env where
  jsonFile : Except String (Except String (GoMap String))
  yamlFile : Except String (Except String (List urlshort.pathURL))
  dbFile : Except String bolt.DB
  listenReturns : Bool

/-- The function `hello` of main.go: `fmt.Fprintln(w, "Hello, world!")`. -/
def hello {σ : Type} : Handler σ :=
  fun w _r s => (w.Write "Hello, world!\n", s)

/-- The function `defaultMux` of main.go: a new `http.ServeMux` with `hello` registered for
the pattern `/`. -/
def defaultMux {σ : Type} : ServeMux σ :=
  NewServeMux.HandleFunc "/" hello

/-- The function `checkError` of main.go. -/
def checkError (message : String) (err : Option String) : Proc Unit :=
  match err with
  | none => Proc.ret ()
  | some e =>
    Proc.andThen (emit (.Println message)) (fun _ =>
    Proc.andThen (emit (.Println e)) (fun _ =>
    osExit 1))

/-- The function `createJSONHandler` of main.go. Returns the handler and the `close`
closure. -/
def createJSONHandler {σ : Type} (env : Env) (filename : String) (fallback : Handler σ) :
    Proc (Handler σ × Proc Unit) :=
  match env.jsonFile with
  | .error err =>
    Proc.andThen (checkError "could not open JSON file" (some err)) (fun _ => halt)
  | .ok file =>
    Proc.andThen (emit (.Open filename)) (fun _ =>
    Proc.andThen (checkError "could not open JSON file" none) (fun _ =>
    let close : Proc Unit := emit (.Close filename)
    match urlshort.JSONHandler file fallback with
    | .error err =>
      Proc.andThen (checkError "could not create JSONHandler" (some err)) (fun _ => halt)
    | .ok handler =>
      Proc.andThen (checkError "could not create JSONHandler" none) (fun _ =>
      Proc.ret (handler, close))))

/-- The function `createYAMLHandler` of main.go. Returns the handler and the `close`
closure. -/
def createYAMLHandler {σ : Type} (env : Env) (filename : String) (fallback : Handler σ) :
    Proc (Handler σ × Proc Unit) :=
  match env.yamlFile with
  | .error err =>
    Proc.andThen (checkError "could not open YAML file" (some err)) (fun _ => halt)
  | .ok file =>
    Proc.andThen (emit (.Open filename)) (fun _ =>
    Proc.andThen (checkError "could not open YAML file" none) (fun _ =>
    let close : Proc Unit := emit (.Close filename)
    match urlshort.YAMLHandler file fallback with
    | .error err =>
      Proc.andThen (checkError "could not create YAMLHandler" (some err)) (fun _ => halt)
    | .ok handler =>
      Proc.andThen (checkError "could not create YAMLHandler" none) (fun _ =>
      Proc.ret (handler, close))))

/-- The function `createDBHandler` of main.go. Returns the handler, the `close` closure and
the store as the seeding `Put` left it. -/
def createDBHandler (env : Env) (filename : String) (fallback : Handler storage.Store) :
    Proc (Handler storage.Store × Proc Unit × storage.Store) :=
  match storage.New env.dbFile with
  | .error err =>
    Proc.andThen (checkError "could not create store" (some err)) (fun _ => halt)
  | .ok store =>
    Proc.andThen (emit (.StoreNew filename)) (fun _ =>
    Proc.andThen (checkError "could not create store" none) (fun _ =>
    let close : Proc Unit := emit (.StoreClose filename)
    match store.Put "/b" "https://github.com/boltdb/bolt" with
    | (some err, _) =>
      Proc.andThen close (fun _ =>
      Proc.andThen (checkError "could not put path/url to storage" (some err)) (fun _ => halt))
    | (none, store1) =>
      Proc.ret (urlshort.DBHandler storage.Store.asStore fallback, close, store1)))

/-- Lines 19 to 28 of `main`: the three handlers are created innermost first. Returns the
handler given to the server, the store it reads, and the deferred calls in the order of
their `defer` statements. -/
def assemble (env : Env) (jsonFilename yamlFilename dbFilename : String) :
    Proc (Handler storage.Store × storage.Store × List (Proc Unit)) :=
  let mux : ServeMux storage.Store := defaultMux
  Proc.andThen (createJSONHandler env jsonFilename mux.ServeHTTP) (fun jh =>
  Proc.andThen (createYAMLHandler env yamlFilename jh.1) (fun yh =>
  Proc.andThen (createDBHandler env dbFilename yh.1) (fun dh =>
  Proc.ret (dh.1, dh.2.2, [jh.2, yh.2, dh.2.1]))))

/-- Run deferred calls as a function returns: the last deferred runs first. -/
def runDeferred : List (Proc Unit) → Proc Unit
  | [] => Proc.ret ()
  | d :: rest => Proc.andThen (runDeferred rest) (fun _ => d)

/-- The function `main` of main.go, followed by the exit of the process when `main`
returns. `ListenAndServe` blocks while the server runs. -/
def main (env : Env) (jsonFilename yamlFilename dbFilename : String) : Proc Unit :=
  Proc.andThen (assemble env jsonFilename yamlFilename dbFilename) (fun a =>
  Proc.andThen (emit (.Println "Starting the server on :8080")) (fun _ =>
  Proc.andThen (emit .ListenAndServe) (fun _ =>
  Proc.andThen (if env.listenReturns then Proc.ret () else halt) (fun _ =>
  Proc.andThen (runDeferred a.2.2) (fun _ =>
  osExit 0)))))

/-- The effects of one run of the program. -/
def trace (env : Env) (jsonFilename yamlFilename dbFilename : String) : List Effect :=
  (main env jsonFilename yamlFilename dbFilename []).2

/-- The files still open after the effects `t`, given the files `opened` before them: `Open`
adds a file, `Close` removes it, and nothing after an `Exit` counts. -/
def openAtExit (opened : List String) : List Effect → List String
  | [] => opened
  | .Open name :: rest => openAtExit (opened ++ [name]) rest
  | .Close name :: rest => openAtExit (opened.erase name) rest
  | .Exit _ :: _ => opened
  | _ :: rest => openAtExit opened rest

/-- Whether the run `t` reaches an `Exit` effect. -/
def exits (t : List Effect) : Bool :=
  t.any (fun e => match e with | .Exit _ => true | _ => false)

end cmd

namespace storage

/-- The number of entries the store holds for `path`: the entries of the bucket
`backetName` with that key, none when the bucket does not exist. -/
def Store.entriesFor (s : Store) (path : String) : Nat :=
  match GoMap.get s.db.buckets backetName with
  | none => 0
  | some b => GoMap.entriesFor b path

end storage

namespace storage

/-- What holds in every state a schedule reaches. Before `s.close()` has run the context is
live and the database open; between `s.close()` and `s.db.Close()` the context is done and
the database still open; once `Close` has returned the context is done and the database
closed; and the reporter has returned only with the context done. -/
def Sys.Inv (s : Sys) : Prop :=
  (s.close = .notCalled → s.done = false ∧ s.dbOpen = true)
  ∧ (s.close = .cancelled → s.done = true ∧ s.dbOpen = true)
  ∧ (s.close = .returned → s.done = true ∧ s.dbOpen = false)
  ∧ (s.stat = .returned → s.done = true)

end storage

/-! ## Facts about Go maps -/

namespace GoMap

theorem get_filter_ne {V : Type} (m : GoMap V) (k p : String) :
    get (m.filter (fun e => !decide (e.1 = k))) p = if p = k then none else get m p := by
  induction m with
  | nil => simp [get]
  | cons e rest ih =>
    obtain ⟨k1, v⟩ := e
    by_cases h1 : k1 = k
    · subst h1
      by_cases hp : p = k1
      · subst hp
        simpa [List.filter_cons] using ih
      · have hp2 : ¬ k1 = p := fun h => hp h.symm
        simp [List.filter_cons, ih, hp, get, hp2]
    · by_cases hk : k1 = p
      · subst hk
        simp [List.filter_cons, h1, get]
      · simp [List.filter_cons, h1, get, hk, ih]

theorem get_set {V : Type} (m : GoMap V) (k p : String) (v : V) :
    get (set m k v) p = if p = k then some v else get m p := by
  by_cases hp : p = k
  · subst hp
    simp [set, get]
  · have hp2 : ¬ k = p := fun h => hp h.symm
    simp [set, get, hp, hp2, get_filter_ne]

theorem get_set_same {V : Type} (m : GoMap V) (k : String) (v : V) :
    get (set m k v) k = some v := by
  simp [get_set]

theorem set_set_same {V : Type} (m : GoMap V) (k : String) (v : V) :
    set (set m k v) k v = set m k v := by
  simp [set, List.filter_cons, List.filter_filter]

theorem entriesFor_set {V : Type} (m : GoMap V) (k : String) (v : V) :
    entriesFor (set m k v) k = 1 := by
  simp [entriesFor, set, List.filter_cons, List.filter_filter]

theorem mem_keys_set {V : Type} (m : GoMap V) (k p : String) (v : V) :
    p ∈ keys (set m k v) ↔ p = k ∨ p ∈ keys m := by
  simp only [keys, set, List.map_cons, List.mem_cons, List.mem_map, List.mem_filter]
  constructor
  · rintro (h | ⟨e, ⟨he, _⟩, rfl⟩)
    · exact Or.inl h
    · exact Or.inr ⟨e, he, rfl⟩
  · rintro (h | ⟨e, he, rfl⟩)
    · exact Or.inl h
    · by_cases hk : e.1 = k
      · exact Or.inl hk
      · exact Or.inr ⟨e, ⟨he, by simpa using hk⟩, rfl⟩

theorem entriesFor_set_le {V : Type} (m : GoMap V) (k p : String) (v : V)
    (h : entriesFor m p ≤ 1) : entriesFor (set m k v) p ≤ 1 := by
  by_cases hp : p = k
  · subst hp
    exact le_of_eq (entriesFor_set m p v)
  · have hp2 : ¬ k = p := fun h => hp h.symm
    have hle : entriesFor (m.filter (fun e => !decide (e.1 = k))) p ≤ entriesFor m p := by
      simp only [entriesFor, List.filter_filter]
      exact List.Sublist.length_le
        (List.monotone_filter_right m (fun e he => by simp at he; simp [he.1]))
    simp only [entriesFor, set, List.filter_cons, hp2, decide_False] at *
    simpa using le_trans hle h

end GoMap

/-! ## MapHandler -/

namespace urlshort

open http

/-- C1: a request whose path is a key of the mapping is answered by `http.Redirect` to the
mapped URL with `StatusFound` (302), so on a response not yet written the status is 302 and
the `Location` header is the mapped URL; the state is untouched and the fallback is run zero
times, whatever the fallback is. -/
theorem MapHandler_redirects_on_hit {σ : Type} (M : GoMap String) (F : Handler σ)
    (w : ResponseWriter) (r : Request) (s : σ) (U : String)
    (hit : GoMap.get M r.URL.Path = some U) :
    MapHandler M F w r s = (Redirect w r U StatusFound, s)
    ∧ (∀ n : Nat, MapHandler M (Handler.counting F) w r (s, n) = (Redirect w r U StatusFound, (s, n)))
    ∧ (w.status = none →
        (MapHandler M F w r s).1.status = some 302
        ∧ GoMap.get (MapHandler M F w r s).1.header "Location" = some U
        ∧ (MapHandler M F w r s).1.body = w.body) := by
  refine ⟨?_, ?_, ?_⟩
  · simp [MapHandler, hit]
  · intro n
    simp [MapHandler, hit]
  · intro hw
    simp [MapHandler, hit, Redirect, ResponseWriter.WriteHeader, hw, StatusFound,
      GoMap.get_set_same]

/-- C1, at the mapping with `/a -> http://x`, the greeting as fallback, a fresh response and
a request for `/a`. -/
theorem MapHandler_redirects_on_hit_witness :
    GoMap.get [("/a", "http://x")] (Request.mk "GET" ⟨"/a"⟩ "/a").URL.Path = some "http://x"
    ∧ NewResponse.status = none
    ∧ MapHandler [("/a", "http://x")] cmd.hello NewResponse ⟨"GET", ⟨"/a"⟩, "/a"⟩ ()
        = (Redirect NewResponse ⟨"GET", ⟨"/a"⟩, "/a"⟩ "http://x" StatusFound, ())
    ∧ (MapHandler [("/a", "http://x")] cmd.hello NewResponse ⟨"GET", ⟨"/a"⟩, "/a"⟩ ()).1.status
        = some 302
    ∧ GoMap.get (MapHandler [("/a", "http://x")] cmd.hello NewResponse
        ⟨"GET", ⟨"/a"⟩, "/a"⟩ ()).1.header "Location" = some "http://x"
    ∧ (MapHandler [("/a", "http://x")] cmd.hello NewResponse ⟨"GET", ⟨"/a"⟩, "/a"⟩ ()).1.body
        = NewResponse.body :=
  ⟨by decide, rfl,
    (MapHandler_redirects_on_hit [("/a", "http://x")] cmd.hello NewResponse
      ⟨"GET", ⟨"/a"⟩, "/a"⟩ () "http://x" (by decide)).1,
    (MapHandler_redirects_on_hit [("/a", "http://x")] cmd.hello NewResponse
      ⟨"GET", ⟨"/a"⟩, "/a"⟩ () "http://x" (by decide)).2.2 rfl⟩

/-- C2: a request whose path is not a key of the mapping gets exactly what the fallback
produces for the same writer, request and state, and the fallback is run exactly once. -/
theorem MapHandler_passes_through_on_miss {σ : Type} (M : GoMap String) (F : Handler σ)
    (w : ResponseWriter) (r : Request) (s : σ)
    (miss : GoMap.get M r.URL.Path = none) :
    MapHandler M F w r s = F w r s
    ∧ (∀ n : Nat, MapHandler M (Handler.counting F) w r (s, n)
        = ((F w r s).1, ((F w r s).2, n + 1))) := by
  refine ⟨?_, ?_⟩
  · simp [MapHandler, miss]
  · intro n
    simp [MapHandler, miss, Handler.counting]

/-- C2, at the mapping with `/a -> http://x`, the greeting as fallback and a request for
`/other`. -/
theorem MapHandler_passes_through_on_miss_witness :
    GoMap.get [("/a", "http://x")] (Request.mk "GET" ⟨"/other"⟩ "/other").URL.Path = none
    ∧ MapHandler [("/a", "http://x")] cmd.hello NewResponse ⟨"GET", ⟨"/other"⟩, "/other"⟩ ()
        = cmd.hello NewResponse ⟨"GET", ⟨"/other"⟩, "/other"⟩ ()
    ∧ MapHandler [("/a", "http://x")] (Handler.counting cmd.hello) NewResponse
        ⟨"GET", ⟨"/other"⟩, "/other"⟩ ((), 0) = (⟨[], some 200, "Hello, world!\n"⟩, ((), 1)) := by
  have h := MapHandler_passes_through_on_miss [("/a", "http://x")] cmd.hello NewResponse
    ⟨"GET", ⟨"/other"⟩, "/other"⟩ () (by decide)
  refine ⟨by decide, h.1, ?_⟩
  rw [h.2 0]
  decide

end urlshort

/-! ## DBHandler -/

namespace urlshort

open http

/-- C4: for every implementation of the `Store` interface, `DBHandler` answers as
`MapHandler` does for any mapping that binds the request path to `u` exactly when
`store.Get` returns `(u, true)` for it, run in the state the `Get` call leaves; and one
invocation calls `Get` exactly once. -/
theorem DBHandler_refines_MapHandler {σ : Type} (st : Store σ) (F : Handler σ)
    (w : ResponseWriter) (r : Request) (s : σ) (M : GoMap String)
    (hM : ∀ u : String,
      GoMap.get M r.URL.Path = some u ↔ (st.Get r.URL.Path s).1 = (u, true)) :
    DBHandler st F w r s = MapHandler M F w r (st.Get r.URL.Path s).2
    ∧ (∀ n : Nat,
        (DBHandler (Store.counting st) (Handler.lift F) w r (s, n)).1
            = (DBHandler st F w r s).1
        ∧ (DBHandler (Store.counting st) (Handler.lift F) w r (s, n)).2
            = ((DBHandler st F w r s).2, n + 1)) := by
  rcases hg : st.Get r.URL.Path s with ⟨⟨dest, ok⟩, s1⟩
  rw [hg] at hM
  refine ⟨?_, ?_⟩
  · cases ok with
    | true =>
      have hm : GoMap.get M r.URL.Path = some dest := (hM dest).2 rfl
      simp [DBHandler, MapHandler, hg, hm]
    | false =>
      have hm : GoMap.get M r.URL.Path = none := by
        cases hv : GoMap.get M r.URL.Path with
        | none => rfl
        | some u =>
          have := (hM u).1 hv
          simp at this
      simp [DBHandler, MapHandler, hg, hm]
  · intro n
    cases ok <;> simp [DBHandler, Store.counting, Handler.lift, hg]

/-- C4, at the bolt-backed store holding `/s -> http://store`, the greeting as fallback and
a request for `/s`. -/
theorem DBHandler_refines_MapHandler_witness :
    (∀ u : String,
      GoMap.get [("/s", "http://store")] (Request.mk "GET" ⟨"/s"⟩ "/s").URL.Path = some u ↔
        (storage.Store.asStore.Get (Request.mk "GET" ⟨"/s"⟩ "/s").URL.Path
          ⟨⟨[("pathsToURLs", [("/s", "http://store")])], none⟩⟩).1 = (u, true))
    ∧ DBHandler storage.Store.asStore cmd.hello NewResponse ⟨"GET", ⟨"/s"⟩, "/s"⟩
        ⟨⟨[("pathsToURLs", [("/s", "http://store")])], none⟩⟩
      = (⟨[("Location", "http://store")], some 302, ""⟩,
          ⟨⟨[("pathsToURLs", [("/s", "http://store")])], none⟩⟩) := by
  have hM : ∀ u : String,
      GoMap.get [("/s", "http://store")] (Request.mk "GET" ⟨"/s"⟩ "/s").URL.Path = some u ↔
        (storage.Store.asStore.Get (Request.mk "GET" ⟨"/s"⟩ "/s").URL.Path
          ⟨⟨[("pathsToURLs", [("/s", "http://store")])], none⟩⟩).1 = (u, true) := by
    intro u
    have h1 : GoMap.get [("/s", "http://store")] (Request.mk "GET" ⟨"/s"⟩ "/s").URL.Path
        = some "http://store" := by decide
    have h2 : (storage.Store.asStore.Get (Request.mk "GET" ⟨"/s"⟩ "/s").URL.Path
          ⟨⟨[("pathsToURLs", [("/s", "http://store")])], none⟩⟩).1
        = ("http://store", true) := by decide
    rw [h1, h2]
    simp
  refine ⟨hM, ?_⟩
  rw [(DBHandler_refines_MapHandler storage.Store.asStore cmd.hello NewResponse
    ⟨"GET", ⟨"/s"⟩, "/s"⟩ ⟨⟨[("pathsToURLs", [("/s", "http://store")])], none⟩⟩
    [("/s", "http://store")] hM).1]
  decide

/-! ## YAMLHandler and JSONHandler -/

theorem yamlMap_append (l : List pathURL) (a : pathURL) :
    yamlMap (l ++ [a]) = GoMap.set (yamlMap l) a.Path a.URL := by
  simp [yamlMap, List.foldl_append]

/-- C8: the mapping `YAMLHandler` builds from the decoded records has as keys exactly the
paths of the records, holds at most one entry per path, and binds each path to the URL of
the last record that carries it; `[{path: /a, url: http://x}]` gives the single entry
`/a -> http://x`, the mapping decoded from the JSON object `{"/a": "http://x"}`. -/
theorem YAMLHandler_last_record_wins {σ : Type} (pathURLs : List pathURL) (F : Handler σ)
    (p : String) :
    (∃ h : Handler σ, YAMLHandler (.ok pathURLs) F = .ok h ∧ h = MapHandler (yamlMap pathURLs) F)
    ∧ (p ∈ GoMap.keys (yamlMap pathURLs) ↔ ∃ item ∈ pathURLs, item.Path = p)
    ∧ GoMap.entriesFor (yamlMap pathURLs) p ≤ 1
    ∧ GoMap.get (yamlMap pathURLs) p
        = ((pathURLs.filter (fun item => decide (item.Path = p))).getLast?).map (fun item => item.URL)
    ∧ yamlMap [⟨"/a", "http://x"⟩] = [("/a", "http://x")]
    ∧ yamlMap [⟨"/a", "http://x"⟩] = jsonObject [("/a", "http://x")] := by
  refine ⟨⟨_, rfl, rfl⟩, ?_, ?_, ?_, by decide, by decide⟩
  · induction pathURLs using List.reverseRecOn with
    | nil => simp [yamlMap, GoMap.keys]
    | append_singleton l a ih =>
      rw [yamlMap_append, GoMap.mem_keys_set, ih]
      constructor
      · rintro (h | ⟨item, hi, hp⟩)
        · exact ⟨a, by simp, h.symm⟩
        · exact ⟨item, by simp [hi], hp⟩
      · rintro ⟨item, hi, hp⟩
        rcases List.mem_append.1 hi with h | h
        · exact Or.inr ⟨item, h, hp⟩
        · simp at h
          subst h
          exact Or.inl hp.symm
  · induction pathURLs using List.reverseRecOn with
    | nil => simp [yamlMap, GoMap.entriesFor]
    | append_singleton l a ih =>
      rw [yamlMap_append]
      exact GoMap.entriesFor_set_le _ _ _ _ ih
  · induction pathURLs using List.reverseRecOn with
    | nil => simp [yamlMap, GoMap.get]
    | append_singleton l a ih =>
      rw [yamlMap_append, GoMap.get_set, ih, List.filter_append]
      by_cases hp : a.Path = p
      · subst hp
        simp [List.filter_cons]
      · have hp2 : ¬ p = a.Path := fun h => hp h.symm
        simp [List.filter_cons, hp, hp2]

end urlshort

/-! ## The store -/

namespace storage

theorem setBucket_setBucket {V : Type} (B : GoMap V) (n : String) (x y : V) :
    GoMap.set (GoMap.set B n x) n y = GoMap.set B n y := by
  simp [GoMap.set, List.filter_cons, List.filter_filter]

/-- What `Put` computes: the refusals of bolt in order, then the commit. -/
theorem Put_eq (s : Store) (path url : String) :
    s.Put path url =
      if path.utf8ByteSize = 0 then (some bolt.ErrKeyRequired, s)
      else if path.utf8ByteSize > bolt.MaxKeySize then (some bolt.ErrKeyTooLarge, s)
      else if url.utf8ByteSize > bolt.MaxValueSize then (some bolt.ErrValueTooLarge, s)
      else
        match s.db.commitErr with
        | some e => (some e, s)
        | none =>
          (none, ⟨⟨GoMap.set s.db.buckets backetName
            (GoMap.set ((GoMap.get s.db.buckets backetName).getD []) path url), none⟩⟩) := by
  have hn : ¬ (backetName.utf8ByteSize = 0) := by decide
  obtain ⟨⟨B, ce⟩⟩ := s
  by_cases h1 : path.utf8ByteSize = 0
  · cases hb : GoMap.get B backetName <;>
      simp [Store.Put, bolt.DB.Update, bolt.Tx.CreateBucketIfNotExists, bolt.Tx.Put, hn, hb, h1]
  · by_cases h2 : path.utf8ByteSize > bolt.MaxKeySize
    · cases hb : GoMap.get B backetName <;>
        simp [Store.Put, bolt.DB.Update, bolt.Tx.CreateBucketIfNotExists, bolt.Tx.Put, hn, hb,
          h1, h2]
    · by_cases h3 : url.utf8ByteSize > bolt.MaxValueSize
      · cases hb : GoMap.get B backetName <;>
          simp [Store.Put, bolt.DB.Update, bolt.Tx.CreateBucketIfNotExists, bolt.Tx.Put, hn, hb,
            h1, h2, h3]
      · cases hb : GoMap.get B backetName <;> cases ce <;>
          simp [Store.Put, bolt.DB.Update, bolt.Tx.CreateBucketIfNotExists, bolt.Tx.Put, hn, hb,
            h1, h2, h3, GoMap.get_set_same, setBucket_setBucket]

/-- A `Put` that returns an error leaves the store as it was. -/
theorem Put_error_unchanged (s : Store) (path url : String)
    (h : (s.Put path url).1 ≠ none) : (s.Put path url).2 = s := by
  rw [Put_eq] at h ⊢
  by_cases h1 : path.utf8ByteSize = 0
  · simp [h1]
  · by_cases h2 : path.utf8ByteSize > bolt.MaxKeySize
    · simp [h1, h2]
    · by_cases h3 : url.utf8ByteSize > bolt.MaxValueSize
      · simp [h1, h2, h3]
      · cases hc : s.db.commitErr with
        | some e => simp [h1, h2, h3, hc]
        | none => simp [h1, h2, h3, hc] at h

/-- A `Put` that returns nil leaves the bucket with `path` bound to `url`. -/
theorem Put_ok_state (s : Store) (path url : String)
    (h : (s.Put path url).1 = none) :
    (s.Put path url).2 = ⟨⟨GoMap.set s.db.buckets backetName
        (GoMap.set ((GoMap.get s.db.buckets backetName).getD []) path url), none⟩⟩
    ∧ s.db.commitErr = none := by
  rw [Put_eq] at h ⊢
  by_cases h1 : path.utf8ByteSize = 0
  · simp [h1] at h
  · by_cases h2 : path.utf8ByteSize > bolt.MaxKeySize
    · simp [h1, h2] at h
    · by_cases h3 : url.utf8ByteSize > bolt.MaxValueSize
      · simp [h1, h2, h3] at h
      · cases hc : s.db.commitErr with
        | some e => simp [h1, h2, h3, hc] at h
        | none => simp [h1, h2, h3, hc]

/-- What `Get` computes. -/
theorem Get_eq (s : Store) (path : String) :
    s.Get path =
      (match GoMap.get s.db.buckets backetName with
        | none => ("", false)
        | some b =>
          match GoMap.get b path with
          | none => ("", false)
          | some u => (u, true),
       s) := by
  simp only [Store.Get, bolt.DB.View, bolt.Tx.Bucket, bolt.Bucket.Get]

end storage

namespace storage

/-- C5: after a `Put(path, url)` that returns nil, `Get(path)` returns `(url, true)`, whatever
the store held before (no bucket, a bucket without the key, a bucket with the key bound to
another value); and on any prior buckets `B` of a database that can commit, the seeding
`Put("/b", "https://github.com/boltdb/bolt")` returns nil and `Get("/b")` then returns that
URL. -/
theorem Put_then_Get_returns_url (s : Store) (path url : String) (B : GoMap bolt.Bucket)
    (ok : (s.Put path url).1 = none) :
    ((s.Put path url).2.Get path).1 = (url, true)
    ∧ ((Store.mk ⟨B, none⟩).Put "/b" "https://github.com/boltdb/bolt").1 = none
    ∧ (((Store.mk ⟨B, none⟩).Put "/b" "https://github.com/boltdb/bolt").2.Get "/b").1
        = ("https://github.com/boltdb/bolt", true) := by
  have general : ∀ (t : Store) (p u : String), (t.Put p u).1 = none →
      ((t.Put p u).2.Get p).1 = (u, true) := by
    intro t p u h
    rw [(Put_ok_state t p u h).1, Get_eq]
    simp [GoMap.get_set_same]
  have seeded : ((Store.mk ⟨B, none⟩).Put "/b" "https://github.com/boltdb/bolt").1 = none := by
    have h1 : ¬ ("/b".utf8ByteSize = 0) := by decide
    have h2 : ¬ ("/b".utf8ByteSize > bolt.MaxKeySize) := by decide
    have h3 : ¬ ("https://github.com/boltdb/bolt".utf8ByteSize > bolt.MaxValueSize) := by
      decide
    rw [Put_eq]
    simp [h1, h2, h3]
  exact ⟨general s path url ok, seeded, general _ _ _ seeded⟩

/-- C5, at a store whose bucket binds `/b` to another value. -/
theorem Put_then_Get_returns_url_witness :
    ((Store.mk ⟨[("pathsToURLs", [("/b", "http://old")])], none⟩).Put "/b"
        "https://github.com/boltdb/bolt").1 = none
    ∧ (((Store.mk ⟨[("pathsToURLs", [("/b", "http://old")])], none⟩).Put "/b"
        "https://github.com/boltdb/bolt").2.Get "/b").1
        = ("https://github.com/boltdb/bolt", true) :=
  ⟨by decide,
    (Put_then_Get_returns_url ⟨⟨[("pathsToURLs", [("/b", "http://old")])], none⟩⟩ "/b"
      "https://github.com/boltdb/bolt" [] (by decide)).1⟩

/-- C6 as stated fails: `Put("", "http://x")` on an empty database is refused by bolt with
"key required", twice in a row, and the store then holds no entry for that path and `Get`
reports a miss. -/
theorem Put_blank_path_holds_no_entry :
    ((Store.mk ⟨[], none⟩).Put "" "http://x").1 = some "key required"
    ∧ (((Store.mk ⟨[], none⟩).Put "" "http://x").2.Put "" "http://x").2.entriesFor "" = 0
    ∧ ((((Store.mk ⟨[], none⟩).Put "" "http://x").2.Put "" "http://x").2.Get "").1
        = ("", false)
    ∧ ¬ ((((Store.mk ⟨[], none⟩).Put "" "http://x").2.Put "" "http://x").2.entriesFor "" = 1
        ∧ ((((Store.mk ⟨[], none⟩).Put "" "http://x").2.Put "" "http://x").2.Get "").1
            = ("http://x", true)) := by
  decide

/-- C6, amended: `Put(path, url)` twice in a row leaves the same store, and returns the same
error value, as `Put(path, url)` once; when the `Put` returns nil the store then holds
exactly one entry for `path` and its value is `url`; a `Put` that returns an error leaves
the store as it was. -/
theorem Put_idempotent (s : Store) (path url : String) :
    ((s.Put path url).2.Put path url).2 = (s.Put path url).2
    ∧ ((s.Put path url).2.Put path url).1 = (s.Put path url).1
    ∧ ((s.Put path url).1 = none →
        (s.Put path url).2.entriesFor path = 1
        ∧ ((s.Put path url).2.Get path).1 = (url, true))
    ∧ ((s.Put path url).1 = none ∨ (s.Put path url).2 = s) := by
  have again : (s.Put path url).2.Put path url = s.Put path url := by
    cases h : (s.Put path url).1 with
    | some e =>
      rw [Put_error_unchanged s path url (by simp [h])]
    | none =>
      have hs := (Put_ok_state s path url h).1
      have h0 := h
      rw [Put_eq] at h0
      rw [hs]
      by_cases h1 : path.utf8ByteSize = 0
      · simp [h1] at h0
      · by_cases h2 : path.utf8ByteSize > bolt.MaxKeySize
        · simp [h1, h2] at h0
        · by_cases h3 : url.utf8ByteSize > bolt.MaxValueSize
          · simp [h1, h2, h3] at h0
          · rw [Put_eq]
            simp [h1, h2, h3, GoMap.get_set_same, setBucket_setBucket, GoMap.set_set_same]
            exact Prod.ext h.symm hs.symm
  refine ⟨by rw [again], by rw [again], ?_, ?_⟩
  · intro h
    refine ⟨?_, ?_⟩
    · rw [(Put_ok_state s path url h).1]
      simp [Store.entriesFor, GoMap.get_set_same, GoMap.entriesFor_set]
    · rw [(Put_ok_state s path url h).1, Get_eq]
      simp [GoMap.get_set_same]
  · cases h : (s.Put path url).1 with
    | none => exact Or.inl rfl
    | some e => exact Or.inr (Put_error_unchanged s path url (by simp [h]))

/-- C6 amended, at the spec's scenario: `Put("/a", "http://x")` on an empty database. -/
theorem Put_idempotent_witness :
    ((Store.mk ⟨[], none⟩).Put "/a" "http://x").1 = none
    ∧ (((Store.mk ⟨[], none⟩).Put "/a" "http://x").2.Put "/a" "http://x").2
        = ((Store.mk ⟨[], none⟩).Put "/a" "http://x").2
    ∧ ((Store.mk ⟨[], none⟩).Put "/a" "http://x").2.entriesFor "/a" = 1
    ∧ (((Store.mk ⟨[], none⟩).Put "/a" "http://x").2.Get "/a").1 = ("http://x", true) :=
  ⟨by decide, (Put_idempotent ⟨⟨[], none⟩⟩ "/a" "http://x").1,
    (Put_idempotent ⟨⟨[], none⟩⟩ "/a" "http://x").2.2.1 (by decide)⟩

/-- C7: `Get(path)` returns `("", false)` when the bucket does not exist or holds no value
for the key, and `(u, true)` with `u` the stored value otherwise; it reports a miss in
exactly those two cases, has no error result, and leaves the store as it was. -/
theorem Get_reports_miss_exactly (s : Store) (path : String) :
    s.Get path =
      (match bolt.Tx.Bucket ⟨s.db.buckets⟩ backetName with
        | none => ("", false)
        | some b =>
          match bolt.Bucket.Get b path with
          | none => ("", false)
          | some u => (u, true),
       s)
    ∧ ((s.Get path).1.2 = false ↔
        (bolt.Tx.Bucket ⟨s.db.buckets⟩ backetName = none
          ∨ ∃ b, bolt.Tx.Bucket ⟨s.db.buckets⟩ backetName = some b
              ∧ bolt.Bucket.Get b path = none)) := by
  refine ⟨Get_eq s path, ?_⟩
  rw [Get_eq]
  simp only [bolt.Tx.Bucket, bolt.Bucket.Get]
  cases GoMap.get s.db.buckets backetName with
  | none => simp
  | some b => cases hb : GoMap.get b path <;> simp [hb]

end storage

/-! ## The default mux -/

namespace http

end http

namespace cmd

open http urlshort

end cmd

/-! ## The chain assembled by main -/

namespace cmd

open http urlshort

end cmd

/-! ## Close and the statistics reporter -/

namespace storage

theorem Sys.Inv_init : Sys.Inv Sys.init := by
  simp [Sys.Inv, Sys.init]

theorem Sys.Inv_step (s s1 : Sys) (st : Step) (inv : Sys.Inv s) (h : s.step st = some s1) :
    Sys.Inv s1 := by
  obtain ⟨i0, i1, i2, i3⟩ := inv
  cases st <;> simp only [Sys.step, storage.Close, storage.stat] at h <;> split at h <;>
    simp only [Option.some.injEq, reduceCtorEq] at h <;> subst h <;>
    simp_all [Sys.Inv]

theorem Sys.Inv_run (sched : List Step) (s s1 : Sys) (inv : Sys.Inv s)
    (h : Sys.run s sched = some s1) : Sys.Inv s1 := by
  induction sched generalizing s with
  | nil =>
    simp only [Sys.run, Option.some.injEq] at h
    exact h ▸ inv
  | cons st rest ih =>
    simp only [Sys.run] at h
    cases hs : s.step st with
    | none => simp [hs] at h
    | some s2 =>
      simp only [hs] at h
      exact ih s2 (Sys.Inv_step s s2 st inv hs) h

/-- C9 as stated fails: in the schedule where the reporter has taken a tick, `Close` then
runs to its end (first the cancellation, the database still open, then the database) and the
reporter resumes, `Close` has returned while the reporter has not, and after that return the
reporter reads the stats of the closed database and emits a record. -/
theorem Close_returns_while_reporter_runs :
    Sys.run Sys.init [.begin, .tick, .cancel]
      = some ⟨true, true, .cancelled, .ticked, [.statsRead true]⟩
    ∧ Sys.run Sys.init [.begin, .tick, .cancel, .dbClose]
      = some ⟨true, false, .returned, .ticked, [.statsRead true, .closeReturned]⟩
    ∧ Sys.run Sys.init [.begin, .tick, .cancel, .dbClose, .report]
      = some ⟨true, false, .returned, .waiting,
          [.statsRead true, .closeReturned, .statsRead false, .emitted]⟩
    ∧ reporterAfterClose [.statsRead true, .closeReturned, .statsRead false, .emitted]
      = [.statsRead false, .emitted]
    ∧ ¬ (∀ (sched : List Step) (s : Sys), Sys.run Sys.init sched = some s →
          s.close = .returned →
            s.stat = .returned ∧ reporterAfterClose s.log = []) := by
  refine ⟨by decide, by decide, by decide, by decide, ?_⟩
  intro h
  have reached := h [.begin, .tick, .cancel, .dbClose]
    ⟨true, false, .returned, .ticked, [.statsRead true, .closeReturned]⟩ (by decide) rfl
  exact absurd reached.1 (by decide)

/-- C9, amended: `Close` signals the cancellation and then closes the database, in that
order, without waiting for the reporter. In every state a schedule reaches: before
`s.close()` the context is live and the database open; between `s.close()` and
`s.db.Close()` the context is done and the database still open; when `Close` has returned
the context is done and the database closed; so the database is never closed with the
context live. The reporter has returned only if the context is done; a reporter blocked in
its `select` with the context done can take the cancellation branch and return; and once it
has returned, no step reads stats or emits a record. -/
theorem Close_cancels_without_waiting (sched : List Step) (s : Sys)
    (reach : Sys.run Sys.init sched = some s) :
    (s.close = .notCalled → s.done = false ∧ s.dbOpen = true)
    ∧ (s.close = .cancelled → s.done = true ∧ s.dbOpen = true)
    ∧ (s.close = .returned → s.done = true ∧ s.dbOpen = false)
    ∧ (s.dbOpen = false → s.done = true)
    ∧ (s.stat = .returned → s.done = true)
    ∧ (s.stat = .waiting → s.done = true →
        s.step .observeDone = some { s with stat := .returned })
    ∧ (s.stat = .returned → ∀ (st : Step) (s1 : Sys), s.step st = some s1 →
        s1.stat = .returned ∧ reporterEvents s1.log = reporterEvents s.log) := by
  obtain ⟨i0, i1, i2, i3⟩ := Sys.Inv_run sched Sys.init s Sys.Inv_init reach
  refine ⟨i0, i1, i2, ?_, i3, ?_, ?_⟩
  · intro hdb
    cases hc : s.close with
    | notCalled =>
      have := (i0 hc).2
      rw [hdb] at this
      exact absurd this (by decide)
    | cancelled => exact (i1 hc).1
    | returned => exact (i2 hc).1
  · intro hw hd
    simp [Sys.step, storage.stat, hw, hd]
  · intro hr st s1 hs
    cases st <;> simp only [Sys.step, storage.Close, storage.stat] at hs <;> split at hs <;>
      simp only [Option.some.injEq, reduceCtorEq] at hs <;> subst hs <;>
      simp_all [reporterEvents, List.filter_append]

/-- C9 amended, at three schedules: `Close` between its two statements, `Close` returned with
the reporter still in its `select`, and the same followed by the reporter taking the
cancellation branch. -/
theorem Close_cancels_without_waiting_witness :
    Sys.run Sys.init [.begin, .cancel]
      = some ⟨true, true, .cancelled, .waiting, [.statsRead true]⟩
    ∧ ((Sys.mk true true .cancelled .waiting [.statsRead true]).done = true
        ∧ (Sys.mk true true .cancelled .waiting [.statsRead true]).dbOpen = true)
    ∧ Sys.run Sys.init [.begin, .cancel, .dbClose]
      = some ⟨true, false, .returned, .waiting, [.statsRead true, .closeReturned]⟩
    ∧ Sys.step ⟨true, false, .returned, .waiting, [.statsRead true, .closeReturned]⟩
        .observeDone
      = some ⟨true, false, .returned, .returned, [.statsRead true, .closeReturned]⟩
    ∧ Sys.run Sys.init [.begin, .cancel, .dbClose, .observeDone]
      = some ⟨true, false, .returned, .returned, [.statsRead true, .closeReturned]⟩
    ∧ (∀ (st : Step) (s1 : Sys),
        Sys.step ⟨true, false, .returned, .returned, [.statsRead true, .closeReturned]⟩ st
          = some s1 →
        s1.stat = .returned
        ∧ reporterEvents s1.log = reporterEvents [.statsRead true, .closeReturned]) :=
  ⟨by decide,
    (Close_cancels_without_waiting [.begin, .cancel]
      ⟨true, true, .cancelled, .waiting, [.statsRead true]⟩ (by decide)).2.1 rfl,
    by decide,
    (Close_cancels_without_waiting [.begin, .cancel, .dbClose]
      ⟨true, false, .returned, .waiting, [.statsRead true, .closeReturned]⟩
      (by decide)).2.2.2.2.2.1 rfl rfl,
    by decide,
    (Close_cancels_without_waiting [.begin, .cancel, .dbClose, .observeDone]
      ⟨true, false, .returned, .returned, [.statsRead true, .closeReturned]⟩
      (by decide)).2.2.2.2.2.2 rfl⟩

end storage

/-! ## Startup and the static source files -/

namespace cmd

/-- C10 fails on the code: when the JSON file opens but does not decode, `checkError` calls
`os.Exit(1)` inside `createJSONHandler`, before `close` is returned and deferred; the run
ends with the JSON file opened and never closed. When the seeding `Put` fails the store is
closed by hand before the exit, and both files are still open. -/
theorem startup_exits_with_json_file_open :
    trace ⟨.ok (.error "unexpected end of JSON input"), .ok (.ok []), .ok ⟨[], none⟩, true⟩
        "pathsToURLs.json" "pathURLs.yaml" "db"
      = [.Open "pathsToURLs.json", .Println "could not create JSONHandler",
          .Println "unexpected end of JSON input", .Exit 1]
    ∧ openAtExit [] (trace ⟨.ok (.error "unexpected end of JSON input"), .ok (.ok []),
        .ok ⟨[], none⟩, true⟩ "pathsToURLs.json" "pathURLs.yaml" "db")
      = ["pathsToURLs.json"]
    ∧ Effect.Close "pathsToURLs.json" ∉
        trace ⟨.ok (.error "unexpected end of JSON input"), .ok (.ok []), .ok ⟨[], none⟩, true⟩
          "pathsToURLs.json" "pathURLs.yaml" "db"
    ∧ trace ⟨.ok (.ok []), .ok (.ok []), .ok ⟨[], some "disk full"⟩, true⟩
        "pathsToURLs.json" "pathURLs.yaml" "db"
      = [.Open "pathsToURLs.json", .Open "pathURLs.yaml", .StoreNew "db", .StoreClose "db",
          .Println "could not put path/url to storage", .Println "disk full", .Exit 1]
    ∧ openAtExit [] (trace ⟨.ok (.ok []), .ok (.ok []), .ok ⟨[], some "disk full"⟩, true⟩
        "pathsToURLs.json" "pathURLs.yaml" "db")
      = ["pathsToURLs.json", "pathURLs.yaml"] := by
  decide

end cmd
